import Mathlib

/-!
Verification of the VoltOpenSourcePlatform CAN signal tooling
(`tools/parsers/decode_log_from_csv.py`, `decode_frame_from_csv.py`,
`csv_to_dbc.py`).

The Python source is shallowly embedded: frames are `List Nat` of byte
values, Python `int` is `Int`/`Nat`, Python `float` fields are modelled as
exact rationals (`ℚ`), and code that can raise an exception returns
`Except String _` where `.error` marks an uncaught Python exception.
-/

/-- Equality of modelled Python results is decidable, so concrete runs can be
checked by evaluation. -/
instance {ε α : Type} [DecidableEq ε] [DecidableEq α] : DecidableEq (Except ε α) := by
  intro x y
  cases x with
  | error a =>
    cases y with
    | error b =>
      exact if h : a = b then isTrue (by rw [h]) else isFalse (fun hc => h (Except.error.inj hc))
    | ok b => exact isFalse Except.noConfusion
  | ok a =>
    cases y with
    | error b => exact isFalse Except.noConfusion
    | ok b =>
      exact if h : a = b then isTrue (by rw [h]) else isFalse (fun hc => h (Except.ok.inj hc))

/-! ## Bit-field codec
Embedded from `decode_log_from_csv.py` lines 94-116; `decode_frame_from_csv.py`
lines 21-44 contain character-identical copies of the same three functions. -/

/-- Embeds Python `int.from_bytes(data8, byteorder="little", signed=False)`:
byte 0 is the least-significant byte. -/
def int_from_bytes_le : List Nat → Nat
  | [] => 0
  | b :: rest => b + 256 * int_from_bytes_le rest

/-- Embeds `get_little_endian` (decode_log_from_csv.py lines 94-97):
`val = int.from_bytes(data8, "little")`, `mask = (1 << bit_len) - 1`,
result `(val >> start_bit) & mask`. -/
def get_little_endian (data8 : List Nat) (start_bit bit_len : Nat) : Nat :=
  let val := int_from_bytes_le data8
  let mask := (1 <<< bit_len) - 1
  (val >>> start_bit) &&& mask

/-- Embeds the loop of `get_big_endian` (decode_log_from_csv.py lines 100-109).
`n` counts the remaining iterations of `for i in range(bit_len)`, `bit_index`
is `start_bit + i`, and `result` is the accumulator.  Python's
`data8[byte_index]` raises `IndexError` when the index is out of range,
modelled by the `.error` branch. -/
def get_big_endian_go (data8 : List Nat) : Nat → Nat → Nat → Except String Nat
  | 0, _, result => .ok result
  | n + 1, bit_index, result =>
    let byte_index := bit_index / 8
    let bit_in_byte := 7 - bit_index % 8
    match data8[byte_index]? with
    | none => .error "IndexError: index out of range"
    | some byte =>
      get_big_endian_go data8 n (bit_index + 1)
        ((result <<< 1) ||| ((byte >>> bit_in_byte) &&& 1))

/-- Embeds `get_big_endian` (decode_log_from_csv.py lines 100-109): Motorola
extraction, bit 0 being the MSB of byte 0. -/
def get_big_endian (data8 : List Nat) (start_bit bit_len : Nat) : Except String Nat :=
  get_big_endian_go data8 bit_len start_bit 0

/-- Embeds `to_signed` (decode_log_from_csv.py lines 112-116):
`sign_bit = 1 << (bit_len - 1)`; if `value & sign_bit` is nonzero the result
is `value - (1 << bit_len)`, else `value`.  Python raises for `bit_len = 0`
(negative shift); the theorems only use `1 ≤ bit_len`, where Nat subtraction
in `bit_len - 1` agrees with Python. -/
def to_signed (value : Nat) (bit_len : Nat) : Int :=
  let sign_bit := 1 <<< (bit_len - 1)
  if value &&& sign_bit ≠ 0 then (value : Int) - ((1 <<< bit_len : Nat) : Int)
  else (value : Int)

/-! ## Spec-side formulations used by the refinement-style claims -/

/-- Modelled from the spec: the big-endian extraction formula exactly as the
spec states it — iterate `i` from `0` to `bit_length - 1`, absolute bit index
`start_bit + i`, `byte_index = bit_index / 8`, `bit_in_byte = 7 - bit_index % 8`,
accumulating `(result << 1) | bit`.  Bytes beyond the frame (excluded by the
claims' preconditions) read as 0. -/
def bigEndianSpecGo (frame : List Nat) (start_bit : Nat) : Nat → Nat → Nat → Nat
  | 0, _, result => result
  | n + 1, i, result =>
    let bit_index := start_bit + i
    let byte_index := bit_index / 8
    let bit_in_byte := 7 - bit_index % 8
    let bit := (frame.getD byte_index 0 >>> bit_in_byte) &&& 1
    bigEndianSpecGo frame start_bit n (i + 1) ((result <<< 1) ||| bit)

/-- Modelled from the spec: big-endian extraction by the iterated formula of
claim C1, starting from `i = 0` and `result = 0`. -/
def bigEndianSpec (frame : List Nat) (start_bit bit_len : Nat) : Nat :=
  bigEndianSpecGo frame start_bit bit_len 0 0

/-- Modelled from the spec: the 8 frame bytes interpreted as one little-endian
unsigned 64-bit integer, byte `j` contributing `frame[j] * 2 ^ (8 * j)`. -/
def leU64 (frame : List Nat) : Nat :=
  ∑ j ∈ Finset.range 8, frame.getD j 0 * 2 ^ (8 * j)

/-! ## Python string primitives
The scripts manipulate Python `str` values; a string is modelled as
`List Char`.  Python's whitespace set for `str.strip`, `str.split()` and the
regex class `\s` is modelled by its ASCII members (the log and signal files
are ASCII). -/

def pyIsSpace (c : Char) : Bool :=
  c == ' ' || c == '\t' || c == '\n' || c == '\r' || c == '\x0b' || c == '\x0c'

/-- Python `str.strip()`. -/
def pyStrip (s : List Char) : List Char :=
  ((s.dropWhile pyIsSpace).reverse.dropWhile pyIsSpace).reverse

/-- Python `str.lower()` (ASCII). -/
def pyToLower (s : List Char) : List Char := s.map Char.toLower

/-- The regex class `[0-9A-Fa-f]` / a valid hex digit for Python `int(_, 16)`. -/
def isHexChar (c : Char) : Bool :=
  c.isDigit || (decide ('a' ≤ c) && decide (c ≤ 'f')) || (decide ('A' ≤ c) && decide (c ≤ 'F'))

/-- The regex class `[A-Za-z0-9_]`. -/
def isWordChar (c : Char) : Bool := c.isAlphanum || c == '_'

def hexDigitVal (c : Char) : Nat :=
  if c.isDigit then c.toNat - '0'.toNat
  else if decide ('a' ≤ c) && decide (c ≤ 'f') then c.toNat - 'a'.toNat + 10
  else c.toNat - 'A'.toNat + 10

/-- Value of a nonempty run of hex digits, most significant first. -/
def hexRunVal (cs : List Char) : Nat := cs.foldl (fun acc c => 16 * acc + hexDigitVal c) 0

/-- Value of a run of decimal digits, most significant first. -/
def digitsVal (cs : List Char) : Nat := cs.foldl (fun acc c => 10 * acc + (c.toNat - '0'.toNat)) 0

/-- Whether the lowercased text begins with `0x` (Python
`s.lower().startswith("0x")`); the argument is already lowercased. -/
def lowered0x : List Char → Bool
  | '0' :: c :: _ => c == 'x'
  | _ => false

/-- Embeds Python `int(s, 16)`: surrounding whitespace, an optional sign and
an optional `0x`/`0X` marker, then at least one hex digit.  (Underscore digit
separators are not modelled; nothing in the repository produces them.) -/
def pyIntBase16 (s : List Char) : Except String Int :=
  let t := pyStrip s
  let signed : Int × List Char :=
    match t with
    | '+' :: r => (1, r)
    | '-' :: r => (-1, r)
    | r => (1, r)
  let body : List Char :=
    match signed.2 with
    | '0' :: c :: r => if c == 'x' || c == 'X' then r else '0' :: c :: r
    | r => r
  if body ≠ [] ∧ body.all isHexChar then .ok (signed.1 * (hexRunVal body : Int))
  else .error "ValueError: invalid literal for int() with base 16"

/-- Modelled subset of Python `float(s)`: surrounding whitespace, an optional
sign, then decimal digits with an optional fractional part (`"12"`, `"12."`,
`"12.5"`, `".5"`).  Exponent notation, `inf`/`nan` and underscore separators
are not modelled (no claim exercises them), and the value is kept as an exact
rational rather than rounded to binary floating point. -/
def pyFloatOfString (s : List Char) : Except String ℚ :=
  let t := pyStrip s
  let signed : ℚ × List Char :=
    match t with
    | '+' :: r => (1, r)
    | '-' :: r => (-1, r)
    | r => (1, r)
  let intPart := signed.2.takeWhile Char.isDigit
  let rest := signed.2.dropWhile Char.isDigit
  match rest with
  | [] =>
    if intPart = [] then .error "ValueError: could not convert string to float"
    else .ok (signed.1 * (digitsVal intPart : ℚ))
  | '.' :: frac =>
    if frac.all Char.isDigit ∧ (intPart ≠ [] ∨ frac ≠ []) then
      .ok (signed.1 * ((digitsVal intPart : ℚ) + (digitsVal frac : ℚ) / (10 : ℚ) ^ frac.length))
    else .error "ValueError: could not convert string to float"
  | _ => .error "ValueError: could not convert string to float"

/-- Python `int(q)` applied to a float: truncation toward zero. -/
def ratTruncate (q : ℚ) : Int := if 0 ≤ q then ⌊q⌋ else ⌈q⌉

/-- Embeds Python `int(float(s))`. -/
def pyIntOfFloat (s : List Char) : Except String Int := do
  let q ← pyFloatOfString s
  .ok (ratTruncate q)

/-! ## CAN id parsing -/

/-- Embeds `parse_can_id` of decode_log_from_csv.py (lines 62-70): `0x`
prefix means hex; a token made only of hex digits containing at least one
letter (e.g. `4D1`) is read as hex; otherwise decimal via `int(float(s))`. -/
def parse_can_id (s : List Char) : Except String Int :=
  let t := pyStrip s
  if lowered0x (pyToLower t) then pyIntBase16 t
  else if t ≠ [] ∧ t.all isHexChar ∧ t.any Char.isAlpha then .ok (hexRunVal t : Int)
  else pyIntOfFloat t

/-- Embeds the `parse_can_id` shared by csv_to_dbc.py (lines 37-41) and
decode_frame_from_csv.py (lines 7-11): `0x` prefix means hex, everything
else decimal via `int(float(s))` — no bare-hex guessing. -/
def parse_can_id_simple (s : List Char) : Except String Int :=
  let t := pyStrip s
  if lowered0x (pyToLower t) then pyIntBase16 t
  else pyIntOfFloat t

/-! ## Endianness and signedness token classification -/

/-- Embeds the `big_endian=` classification of `load_signals`
(decode_log_from_csv.py line 136): trimmed lowercased membership in
`("motorola", "big", "be", "msb", "0", "true", "yes")`. -/
def load_signals_big_endian (s : List Char) : Bool :=
  let t := pyToLower (pyStrip s)
  t == "motorola".toList || t == "big".toList || t == "be".toList || t == "msb".toList ||
    t == "0".toList || t == "true".toList || t == "yes".toList

/-- Embeds `is_big_endian` (csv_to_dbc.py lines 59-63): trimmed lowercased
membership in `("motorola", "big", "be", "msb", "1", "true", "yes")`. -/
def is_big_endian (s : List Char) : Bool :=
  let t := pyToLower (pyStrip s)
  t == "motorola".toList || t == "big".toList || t == "be".toList || t == "msb".toList ||
    t == "1".toList || t == "true".toList || t == "yes".toList

/-- Embeds `is_signed` (csv_to_dbc.py lines 55-57) and the identical
`signed=` membership test of `load_signals` (decode_log_from_csv.py
line 135): trimmed lowercased membership in
`("signed", "s", "1", "true", "yes")`. -/
def is_signed (s : List Char) : Bool :=
  let t := pyToLower (pyStrip s)
  t == "signed".toList || t == "s".toList || t == "1".toList || t == "true".toList ||
    t == "yes".toList

/-- The big-endian vocabulary of `load_signals` in decode_log_from_csv.py. -/
def logBigEndianVocab : List (List Char) :=
  ["motorola".toList, "big".toList, "be".toList, "msb".toList, "0".toList,
    "true".toList, "yes".toList]

/-- The big-endian vocabulary of `is_big_endian` in csv_to_dbc.py. -/
def dbcBigEndianVocab : List (List Char) :=
  ["motorola".toList, "big".toList, "be".toList, "msb".toList, "1".toList,
    "true".toList, "yes".toList]

/-! ## The signal-definition table -/

/-- A row of the signal CSV
(`name,can_id,units,start_bit,bit_length,offset,scale,max,min,signedness,endian,dlc`).
`csv.DictReader` yields every header column for every row; a column that is
blank in the file is the empty string. -/
structure Row where
  name : List Char
  can_id : List Char
  units : List Char
  start_bit : List Char
  bit_length : List Char
  offset : List Char
  scale : List Char
  max : List Char
  min : List Char
  signedness : List Char
  endian : List Char
  dlc : List Char
deriving DecidableEq

/-- A row with the given `name`, `can_id` and `dlc` columns and every other
column blank; used by concrete instances. -/
def sampleRow (nm cid dl : List Char) : Row :=
  ⟨nm, cid, [], [], [], [], [], [], [], [], [], dl⟩

/-- Marks an uncaught Python exception. -/
def isError {α : Type} : Except String α → Bool
  | .error _ => true
  | .ok _ => false

/-- Embeds `parse_int` (csv_to_dbc.py lines 43-47): blank text yields the
default, anything else is `int(float(s))`. -/
def parse_int (s : List Char) (default : Int) : Except String Int :=
  let t := pyStrip s
  if t = [] then .ok default
  else pyIntOfFloat t

/-- Embeds `parse_float` (csv_to_dbc.py lines 49-53). -/
def parse_float (s : List Char) (default : ℚ) : Except String ℚ :=
  let t := pyStrip s
  if t = [] then .ok default
  else pyFloatOfString t

/-- Embeds the dataclass `SignalDef` (decode_log_from_csv.py lines 32-43).
Bit positions are `Nat`: the decoder claims only exercise non-negative
positions (a negative Python `start_bit` would raise in `get_little_endian`). -/
structure SignalDef where
  name : List Char
  can_id : Int
  units : List Char
  start_bit : Nat
  bit_length : Nat
  offset : ℚ
  scale : ℚ
  signed : Bool
  big_endian : Bool
  dlc : Int
deriving DecidableEq

/-- Embeds `load_signals` (decode_log_from_csv.py lines 119-140) on
already-tokenized rows, flattening the insertion-ordered `by_id` dict into
one ordered list (lookup by id is order-preserving filtration).  Numeric
fields follow the source's `row.get(...) or <default>` rule: a blank column
takes the default, any other text must parse as a number or the load aborts.
A negative parsed bit position (which would make the Python decoder raise
later) is clamped by `toNat`; no claim exercises it. -/
def load_signals : List Row → Except String (List SignalDef)
  | [] => .ok []
  | r :: rs =>
    if r.name = [] ∨ r.can_id = [] then load_signals rs
    else do
      let cid ← parse_can_id r.can_id
      let sb ← if r.start_bit = [] then Except.ok (0 : Int) else pyIntOfFloat r.start_bit
      let bl ← if r.bit_length = [] then Except.ok (1 : Int) else pyIntOfFloat r.bit_length
      let off ← if r.offset = [] then Except.ok (0 : ℚ) else pyFloatOfString r.offset
      let sc ← if r.scale = [] then Except.ok (1 : ℚ) else pyFloatOfString r.scale
      let dl ← if r.dlc = [] then Except.ok (8 : Int) else pyIntOfFloat r.dlc
      let rest ← load_signals rs
      .ok (⟨pyStrip r.name, cid, pyStrip r.units, sb.toNat, bl.toNat, off, sc,
        is_signed r.signedness, load_signals_big_endian r.endian, dl⟩ :: rest)

/-- Embeds the row filter and grouping loops of csv_to_dbc.py `main`
(lines 76-85) restricted to one CAN id `c`: rows with a falsy `name` are
skipped, the remaining rows are grouped by parsed can_id in input order, and
a `can_id` column that fails to parse aborts the run. -/
def dbcSigsFor : List Row → Int → Except String (List Row)
  | [], _ => .ok []
  | r :: rs, c =>
    if r.name = [] then dbcSigsFor rs c
    else do
      let cid ← parse_can_id_simple r.can_id
      let rest ← dbcSigsFor rs c
      .ok (if cid = c then r :: rest else rest)

/-- Embeds the DLC fold of csv_to_dbc.py `main` (lines 132-134): `dlc`
starts at `DEFAULT_DLC = 8` and each signal's `dlc` column is parsed with
the running value as default. -/
def dbcDlcGo : List Row → Int → Except String Int
  | [], dlc => .ok dlc
  | r :: rs, dlc => do
    let dlc2 ← parse_int r.dlc dlc
    dbcDlcGo rs dlc2

/-- The DLC emitted on the `BO_` line of one message. -/
def dbcMessageDlc (sigs : List Row) : Except String Int := dbcDlcGo sigs 8

/-- Embeds the row-selection loop of decode_frame_from_csv.py `main`
(lines 56-63): rows with a falsy `can_id` are skipped; a row whose parsed
can_id equals the target is kept regardless of its other fields (`name`
included). -/
def decode_frame_matching_rows : List Row → Int → Except String (List Row)
  | [], _ => .ok []
  | r :: rs, c =>
    if r.can_id = [] then decode_frame_matching_rows rs c
    else do
      let cid ← parse_can_id_simple r.can_id
      let rest ← decode_frame_matching_rows rs c
      .ok (if cid = c then r :: rest else rest)

/-- The explicitly-provided ("non-default") DLC of a row: `none` when the
column is blank, otherwise the parsed value. -/
def explicitDlc (r : Row) : Option Int :=
  if pyStrip r.dlc = [] then none
  else (pyIntOfFloat (pyStrip r.dlc)).toOption

/-- Whether `int(float(s))` succeeds. -/
def parsesAsPyNumber (s : List Char) : Bool := (pyIntOfFloat s).toOption.isSome

/-! ## Log frame parsing (decode_log_from_csv.py) -/

/-- A parsed frame: optional timestamp text, CAN id, data bytes
(the `(ts, cid, data)` tuple of `parse_frame_line`). -/
structure Frame where
  ts : Option (List Char)
  cid : Int
  data : List Nat
deriving DecidableEq

/-- Split at the first occurrence of `sep`, when present. -/
def splitFirstAt (sep : Char) : List Char → Option (List Char × List Char)
  | [] => none
  | c :: cs =>
    if c = sep then some ([], cs)
    else match splitFirstAt sep cs with
      | none => none
      | some (a, b) => some (c :: a, b)

/-- Python `str.split(sep)` (keeps empty pieces). -/
def pySplitOn (sep : Char) : List Char → List (List Char)
  | [] => [[]]
  | c :: cs =>
    if c = sep then [] :: pySplitOn sep cs
    else match pySplitOn sep cs with
      | [] => [[c]]
      | p :: ps => (c :: p) :: ps

/-- Helper for `pySplitWs`: the token currently being built and the finished
tokens to its right. -/
def pySplitWsGo : List Char → List Char × List (List Char)
  | [] => ([], [])
  | c :: cs =>
    let acc := pySplitWsGo cs
    if pyIsSpace c then ([], if acc.1 = [] then acc.2 else acc.1 :: acc.2)
    else (c :: acc.1, acc.2)

/-- Python `str.split()` with no argument: split on whitespace runs,
discarding empty tokens. -/
def pySplitWs (s : List Char) : List (List Char) :=
  if (pySplitWsGo s).1 = [] then (pySplitWsGo s).2
  else (pySplitWsGo s).1 :: (pySplitWsGo s).2

/-- Embeds matching of `CSV_RE` =
`^\s*(?P<ts>[^,]+)\s*,\s*(?P<id>[^,]+)\s*,\s*(?P<rest>.+)\s*$`
(decode_log_from_csv.py line 59): a match exists exactly when the line splits
as nonempty-comma-free text, a comma, nonempty comma-free text, a comma, and
a nonempty remainder.  The returned groups here are the full segments; the
regex groups can differ from them only in surrounding whitespace, which every
consumer strips (`ts.strip()`, the strip inside `parse_can_id`, and the
per-token strip in `parse_bytes_from_csv_parts`).  Input lines contain no
newline: the caller iterates a file line by line and strips each line. -/
def csvMatch (s : List Char) : Option (List Char × List Char × List Char) :=
  match splitFirstAt ',' s with
  | none => none
  | some (seg1, r1) =>
    if seg1 = [] then none
    else match splitFirstAt ',' r1 with
      | none => none
      | some (seg2, rest) =>
        if seg2 = [] then none
        else if rest = [] then none
        else some (seg1, seg2, rest)

/-- The `(?P<id>[0-9A-Fa-f]+)\#(?P<data>[0-9A-Fa-f]*)\s*$` tail of
`CAN_DUMP_RE`: a nonempty hex id, `#`, a possibly empty hex data run, then
only whitespace. -/
def idDataMatch (s : List Char) : Option (List Char × List Char) :=
  if s.takeWhile isHexChar = [] then none
  else match s.dropWhile isHexChar with
    | '#' :: r2 =>
      if (r2.dropWhile isHexChar).all pyIsSpace then
        some (s.takeWhile isHexChar, r2.takeWhile isHexChar)
      else none
    | _ => none

/-- The `(?P<ts>[0-9]+\.[0-9]+)\)\s+` part of `CAN_DUMP_RE`, after the `(`:
digits, a dot, digits, `)`, then at least one whitespace; returns the
timestamp group and the remainder after the whitespace. -/
def tsGroupMatch (s : List Char) : Option (List Char × List Char) :=
  if s.takeWhile Char.isDigit = [] then none
  else match s.dropWhile Char.isDigit with
    | '.' :: r2 =>
      if r2.takeWhile Char.isDigit = [] then none
      else match r2.dropWhile Char.isDigit with
        | ')' :: r4 =>
          if r4.takeWhile pyIsSpace = [] then none
          else some (s.takeWhile Char.isDigit ++ '.' :: r2.takeWhile Char.isDigit,
            r4.dropWhile pyIsSpace)
        | _ => none
    | _ => none

/-- The optional `(?:(?P<iface>[A-Za-z0-9_]+)\s+)?` group followed by the
id/data tail: a word run followed by whitespace is consumed as the interface.
This greedy choice loses no match: when the word run is followed by
whitespace, reading an id at the same position fails — the maximal hex run is
a prefix of the word run and is followed by a non-hex word character or the
whitespace, never by `#`. -/
def ifaceIdData (ts : Option (List Char)) (r : List Char) :
    Option (Option (List Char) × List Char × List Char) :=
  if r.takeWhile isWordChar ≠ [] ∧ ((r.dropWhile isWordChar).takeWhile pyIsSpace) ≠ [] then
    match idDataMatch ((r.dropWhile isWordChar).dropWhile pyIsSpace) with
    | none => none
    | some (cid, dat) => some (ts, cid, dat)
  else
    match idDataMatch r with
    | none => none
    | some (cid, dat) => some (ts, cid, dat)

/-- Embeds matching of `CAN_DUMP_RE` (decode_log_from_csv.py lines 46-57):
leading whitespace, an optional bracketed float timestamp, an optional
interface token, then `<hex id>#<hex data>` and trailing whitespace.  The
regex's backtracking is deterministic here: every character class is disjoint
from what must follow it, and when a present optional group fails, skipping
it cannot recover the match (after `(` neither a word nor a hex character
follows). -/
def canDumpMatch (s : List Char) : Option (Option (List Char) × List Char × List Char) :=
  match s.dropWhile pyIsSpace with
  | '(' :: r =>
    match tsGroupMatch r with
    | none => none
    | some (ts, r2) => ifaceIdData (some ts) r2
  | t => ifaceIdData none t

/-- `bytes.fromhex` on an even-length run of hex digits (its only use:
the already-validated `data` regex group, padded to even length). -/
def fromHexPairs : List Char → List Nat
  | a :: b :: rest => (16 * hexDigitVal a + hexDigitVal b) :: fromHexPairs rest
  | _ => []

/-- Embeds `parse_bytes_from_hex_data` (decode_log_from_csv.py lines 73-81)
on its only input shape — a run of hex digits from the `data` regex group, on
which `bytes.fromhex` cannot raise: strip, empty text gives no bytes, an odd
digit count is right-padded with one `'0'` nibble, then hex pairs become
bytes. -/
def parse_bytes_from_hex_data (hexdata : List Char) : List Nat :=
  if pyStrip hexdata = [] then []
  else fromHexPairs (if (pyStrip hexdata).length % 2 = 1 then pyStrip hexdata ++ ['0']
    else pyStrip hexdata)

/-- One token parsed by `int(p, 16)` and range-checked by the `bytes(...)`
constructor (values outside `range(0, 256)` raise). -/
def int_base16_byte (p : List Char) : Except String Nat := do
  let v ← pyIntBase16 p
  if 0 ≤ v ∧ v < 256 then .ok v.toNat
  else .error "ValueError: bytes must be in range(0, 256)"

/-- Embeds `parse_bytes_from_csv_parts` (decode_log_from_csv.py lines 84-91):
split the rest on commas and strip each token; a single token containing a
space is re-split on whitespace; fewer than 8 tokens raise `ValueError`;
the first 8 tokens become bytes. -/
def parse_bytes_from_csv_parts (rest : List Char) : Except String (List Nat) :=
  if ((pySplitOn ',' rest).map pyStrip).length = 1 ∧
      (((pySplitOn ',' rest).map pyStrip).headD []).contains ' ' then
    if (pySplitWs (((pySplitOn ',' rest).map pyStrip).headD [])).length < 8 then
      .error "CSV frame line must contain 8 data bytes after id."
    else ((pySplitWs (((pySplitOn ',' rest).map pyStrip).headD [])).take 8).mapM int_base16_byte
  else
    if ((pySplitOn ',' rest).map pyStrip).length < 8 then
      .error "CSV frame line must contain 8 data bytes after id."
    else (((pySplitOn ',' rest).map pyStrip).take 8).mapM int_base16_byte

/-- Embeds `parse_frame_line` (decode_log_from_csv.py lines 143-166): strip;
blank lines and `#` comments give `None`; `CSV_RE` is tried first (its
consumers can raise, aborting the caller); then `CAN_DUMP_RE`, whose id is
always hex and whose data cannot fail; a line matching neither gives `None`. -/
def parse_frame_line (line : List Char) : Except String (Option Frame) :=
  if pyStrip line = [] then .ok none
  else if (pyStrip line).headD ' ' = '#' then .ok none
  else match csvMatch (pyStrip line) with
  | some (seg1, seg2, rest) => do
    let cid ← parse_can_id seg2
    let dat ← parse_bytes_from_csv_parts rest
    .ok (some ⟨some (pyStrip seg1), cid, dat⟩)
  | none =>
    match canDumpMatch (pyStrip line) with
    | some (ts, cidChars, datChars) =>
      .ok (some ⟨ts, (hexRunVal cidChars : Int), parse_bytes_from_hex_data datChars⟩)
    | none => .ok none

/-! ## The decode loop of decode_log_from_csv.py `main` -/

/-- Embeds the 8-byte normalization of `main` (decode_log_from_csv.py
lines 197-201): zero-pad short data on the right, truncate long data to the
first 8 bytes. -/
def normalize8 (data : List Nat) : List Nat :=
  if data.length < 8 then data ++ List.replicate (8 - data.length) 0
  else data.take 8

/-- One output row `timestamp,can_id,signal,value,units,raw`.  `can_id` is
kept numeric; the writer renders it as `"0x%X"`, a function of the field, so
equal rows render to equal text. -/
structure OutRow where
  timestamp : List Char
  can_id : Int
  signal : List Char
  value : ℚ
  units : List Char
  raw : Int
deriving DecidableEq

/-- Python `ts or ""` (an absent timestamp prints as the empty string). -/
def tsOrEmpty : Option (List Char) → List Char
  | none => []
  | some t => t

/-- Embeds the per-signal decode of `main`'s loop (decode_log_from_csv.py
lines 208-212): big- or little-endian raw extraction, optional sign
extension, then `value = raw * scale + offset`. -/
def decodeOne (sd : SignalDef) (data8 : List Nat) : Except String (Int × ℚ) := do
  let raw0 ← if sd.big_endian then get_big_endian data8 sd.start_bit sd.bit_length
    else Except.ok (get_little_endian data8 sd.start_bit sd.bit_length)
  let raw : Int := if sd.signed then to_signed raw0 sd.bit_length else (raw0 : Int)
  .ok (raw, (raw : ℚ) * sd.scale + sd.offset)

/-- The output rows of one frame's matching signals, in definition order. -/
def rowsFor (matching : List SignalDef) (ts : Option (List Char)) (cid : Int)
    (data8 : List Nat) : Except String (List OutRow) :=
  matching.mapM (fun sd => do
    let rv ← decodeOne sd data8
    Except.ok (⟨tsOrEmpty ts, cid, sd.name, rv.2, sd.units, rv.1⟩ : OutRow))

/-- The rows decoded from one log line against a signal repository (the
`signals_by_id` lookup is order-preserving filtration by can_id). -/
def decodeLineRows (sigs : List SignalDef) (line : List Char) :
    Except String (List OutRow) := do
  let parsed ← parse_frame_line line
  match parsed with
  | none => .ok []
  | some f => rowsFor (sigs.filter (fun sd => sd.can_id == f.cid)) f.ts f.cid (normalize8 f.data)

/-- The counters of `main`'s loop and the rows written so far. -/
structure LoopState where
  total_frames : Nat
  decoded_rows : Nat
  skipped_frames : Nat
  out : List OutRow
deriving DecidableEq

def initState : LoopState := ⟨0, 0, 0, []⟩

/-- Embeds one iteration of `main`'s log loop (decode_log_from_csv.py
lines 189-214): an unparsed line is skipped without touching any counter; a
parsed frame counts as read, is normalized, and either counts as skipped
(no matching can_id) or appends one row per matching signal. -/
def processLine (sigs : List SignalDef) (st : LoopState) (line : List Char) :
    Except String LoopState := do
  let parsed ← parse_frame_line line
  match parsed with
  | none => .ok st
  | some f =>
    if (sigs.filter (fun sd => sd.can_id == f.cid)) = [] then
      .ok { st with total_frames := st.total_frames + 1, skipped_frames := st.skipped_frames + 1 }
    else do
      let rows ← rowsFor (sigs.filter (fun sd => sd.can_id == f.cid)) f.ts f.cid (normalize8 f.data)
      .ok { st with total_frames := st.total_frames + 1, decoded_rows := st.decoded_rows + rows.length, out := st.out ++ rows }

/-- Embeds the whole log loop: lines processed in order, an uncaught
exception aborting the remainder. -/
def processLines (sigs : List SignalDef) : LoopState → List (List Char) →
    Except String LoopState
  | st, [] => .ok st
  | st, l :: rest => do
    let st2 ← processLine sigs st l
    processLines sigs st2 rest

/-- The signal definition of claim C4: `can_id=0x4D1`, `start_bit=0`,
`bit_length=16`, little-endian, unsigned, `scale=0.1` (the exact rational
1/10), `offset=0`. -/
def c4sig : SignalDef :=
  ⟨"SIG".toList, 0x4D1, "u".toList, 0, 16, 0, mkRat 1 10, false, false, 8⟩

/-! ## Arithmetic helper lemmas -/

theorem shiftLeft_one_or_bit (a b : Nat) (hb : b ≤ 1) :
    (a <<< 1) ||| b = 2 * a + b := by
  rw [Nat.shiftLeft_eq, pow_one, Nat.mul_comm]
  interval_cases b
  · simp
  · apply Nat.eq_of_testBit_eq
    intro i
    rcases i with _ | i
    · simp
      omega
    · rw [Nat.testBit_or, Nat.testBit_add_one, Nat.testBit_add_one, Nat.testBit_add_one]
      have h1 : (2 * a) / 2 = a := by omega
      have h2 : (2 * a + 1) / 2 = a := by omega
      have h3 : (1 : Nat) / 2 = 0 := by omega
      rw [h1, h2, h3]
      simp

theorem extracted_bit_le_one (byte k : Nat) : (byte >>> k) &&& 1 ≤ 1 :=
  Nat.and_le_right

/-- The big-endian loop succeeds and is bounded whenever every visited bit
index stays below 64 and the frame has 8 bytes. -/
theorem get_big_endian_go_ok (data8 : List Nat) (h8 : data8.length = 8)
    (n : Nat) : ∀ bit_index result, bit_index + n ≤ 64 →
    ∃ r, get_big_endian_go data8 n bit_index result = Except.ok r ∧
      r < (result + 1) * 2 ^ n := by
  induction n with
  | zero =>
    intro bi res _
    exact ⟨res, rfl, by simp⟩
  | succ n ih =>
    intro bi res h
    have hlt : bi / 8 < data8.length := by rw [h8]; omega
    obtain ⟨b, hb⟩ : ∃ b, data8[bi / 8]? = some b :=
      ⟨data8[bi / 8], List.getElem?_eq_getElem hlt⟩
    have hbit : (b >>> (7 - bi % 8)) &&& 1 ≤ 1 := extracted_bit_le_one b _
    obtain ⟨r, hr, hrlt⟩ :=
      ih (bi + 1) ((res <<< 1) ||| ((b >>> (7 - bi % 8)) &&& 1)) (by omega)
    refine ⟨r, ?_, ?_⟩
    · simp only [get_big_endian_go, hb]
      exact hr
    · have hacc : (res <<< 1) ||| ((b >>> (7 - bi % 8)) &&& 1) ≤ 2 * res + 1 := by
        rw [shiftLeft_one_or_bit res _ hbit]
        omega
      have h2n : ((res <<< 1) ||| ((b >>> (7 - bi % 8)) &&& 1)) + 1 ≤ 2 * (res + 1) := by
        omega
      calc r < (((res <<< 1) ||| ((b >>> (7 - bi % 8)) &&& 1)) + 1) * 2 ^ n := hrlt
        _ ≤ (2 * (res + 1)) * 2 ^ n := Nat.mul_le_mul h2n (le_refl _)
        _ = (res + 1) * 2 ^ (n + 1) := by ring

/-- The big-endian loop computes the spec's iterated formula whenever every
visited bit index stays below 64 and the frame has 8 bytes. -/
theorem get_big_endian_go_spec (frame : List Nat) (h8 : frame.length = 8)
    (start_bit : Nat) (n : Nat) : ∀ i result, start_bit + i + n ≤ 64 →
    get_big_endian_go frame n (start_bit + i) result =
      Except.ok (bigEndianSpecGo frame start_bit n i result) := by
  induction n with
  | zero => intro i res _; rfl
  | succ n ih =>
    intro i res h
    have hlt : (start_bit + i) / 8 < frame.length := by rw [h8]; omega
    have hb : frame[(start_bit + i) / 8]? = some (frame.getD ((start_bit + i) / 8) 0) := by
      rw [List.getElem?_eq_getElem hlt, List.getD_eq_getElem frame 0 hlt]
    simp only [get_big_endian_go, bigEndianSpecGo, hb]
    have harg : start_bit + i + 1 = start_bit + (i + 1) := by omega
    rw [harg]
    exact ih (i + 1) _ (by omega)

/-- `int.from_bytes(_, "little")` is the positional sum of the bytes. -/
theorem int_from_bytes_le_eq_sum (l : List Nat) :
    int_from_bytes_le l = ∑ j ∈ Finset.range l.length, l.getD j 0 * 2 ^ (8 * j) := by
  induction l with
  | nil => simp [int_from_bytes_le]
  | cons b rest ih =>
    rw [int_from_bytes_le, ih, List.length_cons, Finset.sum_range_succ']
    have h0 : (b :: rest).getD 0 0 * 2 ^ (8 * 0) = b := by simp
    have hsucc : ∀ j : Nat, (b :: rest).getD (j + 1) 0 * 2 ^ (8 * (j + 1)) =
        256 * (rest.getD j 0 * 2 ^ (8 * j)) := by
      intro j
      rw [List.getD_cons_succ, show 8 * (j + 1) = 8 * j + 8 by ring, pow_add]
      ring
    simp only [hsucc, h0]
    rw [← Finset.mul_sum]
    ring

/-! ## Claim theorems for the codec -/

/-- C1: big-endian (Motorola) extraction on an 8-byte frame returns exactly
the integer built by iterating `i` from `0` to `bit_length - 1` with absolute
bit index `start_bit + i`, `byte_index = bit_index / 8`,
`bit_in_byte = 7 - bit_index % 8`, accumulating `(result << 1) | bit`; and
decoding `start_bit = 0`, `bit_length = 8` from a frame whose first byte is
`0xAB` yields raw `0xAB`. -/
theorem c1_big_endian_iterated_formula :
    (∀ (frame : List Nat) (start_bit bit_len : Nat), frame.length = 8 →
      start_bit + bit_len ≤ 64 →
      get_big_endian frame start_bit bit_len =
        Except.ok (bigEndianSpec frame start_bit bit_len)) ∧
    get_big_endian [0xAB, 0, 0, 0, 0, 0, 0, 0] 0 8 = Except.ok 0xAB := by
  constructor
  · intro frame s l h8 hle
    have h := get_big_endian_go_spec frame h8 s l 0 0 (by omega)
    simpa [get_big_endian, bigEndianSpec] using h
  · rfl

/-- C1 witness: the universal part of C1 instantiated on the concrete
`0xAB` frame with `start_bit = 0`, `bit_length = 8`. -/
theorem c1_big_endian_iterated_formula_witness :
    ([0xAB, 0, 0, 0, 0, 0, 0, 0] : List Nat).length = 8 ∧ 0 + 8 ≤ 64 ∧
    get_big_endian [0xAB, 0, 0, 0, 0, 0, 0, 0] 0 8 =
      Except.ok (bigEndianSpec [0xAB, 0, 0, 0, 0, 0, 0, 0] 0 8) :=
  ⟨by decide, by decide,
    c1_big_endian_iterated_formula.1 [0xAB, 0, 0, 0, 0, 0, 0, 0] 0 8
      (by decide) (by decide)⟩

/-- C2: for every 8-byte frame and every `start_bit + bit_len ≤ 64`,
little-endian (Intel) extraction equals interpreting the bytes as one
little-endian unsigned 64-bit integer, shifting right by `start_bit` and
masking the low `bit_len` bits. -/
theorem c2_little_endian_shift_and_mask (frame : List Nat) (start_bit bit_len : Nat)
    (h8 : frame.length = 8) (_hle : start_bit + bit_len ≤ 64) :
    get_little_endian frame start_bit bit_len =
      (leU64 frame >>> start_bit) &&& ((1 <<< bit_len) - 1) := by
  unfold get_little_endian leU64
  rw [int_from_bytes_le_eq_sum, h8]

/-- C2 witness: the frame `01 02 03 04 05 06 07 08` at `start_bit = 0`,
`bit_len = 16`. -/
theorem c2_little_endian_shift_and_mask_witness :
    ([1, 2, 3, 4, 5, 6, 7, 8] : List Nat).length = 8 ∧ 0 + 16 ≤ 64 ∧
    get_little_endian [1, 2, 3, 4, 5, 6, 7, 8] 0 16 =
      (leU64 [1, 2, 3, 4, 5, 6, 7, 8] >>> 0) &&& ((1 <<< 16) - 1) :=
  ⟨by decide, by decide,
    c2_little_endian_shift_and_mask [1, 2, 3, 4, 5, 6, 7, 8] 0 16 (by decide) (by decide)⟩

/-- C3: for `1 ≤ bit_len` and `raw < 2 ^ bit_len`, `to_signed` implements
`bit_len`-wide two's-complement: if bit `bit_len - 1` of `raw` is set the
result is `raw - 2 ^ bit_len`, otherwise `raw` unchanged; and for
`bit_len = 8`: `0xFF ↦ -1`, `0x80 ↦ -128`, `0x7F ↦ 127`. -/
theorem c3_to_signed_twos_complement :
    (∀ (bit_len raw : Nat), 1 ≤ bit_len → raw < 2 ^ bit_len →
      to_signed raw bit_len =
        if raw.testBit (bit_len - 1) then (raw : Int) - 2 ^ bit_len
        else (raw : Int)) ∧
    to_signed 0xFF 8 = -1 ∧ to_signed 0x80 8 = -128 ∧ to_signed 0x7F 8 = 127 := by
  refine ⟨?_, by decide, by decide, by decide⟩
  intro l raw _ _
  unfold to_signed
  have hs : (1 <<< (l - 1)) = 2 ^ (l - 1) := by rw [Nat.shiftLeft_eq, one_mul]
  have ha : raw &&& 2 ^ (l - 1) = (raw.testBit (l - 1)).toNat * 2 ^ (l - 1) :=
    Nat.and_two_pow raw (l - 1)
  have h2 : ((1 <<< l : Nat) : Int) = 2 ^ l := by
    rw [Nat.shiftLeft_eq, one_mul]
    push_cast
    rfl
  show (if raw &&& (1 <<< (l - 1)) ≠ 0 then (raw : Int) - ((1 <<< l : Nat) : Int)
    else (raw : Int)) = _
  rw [hs, ha, h2]
  cases hbit : raw.testBit (l - 1) with
  | false => simp
  | true => simp [pow_ne_zero]

/-- C3 witness: the universal part of C3 instantiated at `bit_len = 8`,
`raw = 0xFF`. -/
theorem c3_to_signed_twos_complement_witness :
    1 ≤ 8 ∧ 0xFF < 2 ^ 8 ∧
    to_signed 0xFF 8 = (if Nat.testBit 0xFF 7 then (0xFF : Int) - 2 ^ 8 else (0xFF : Int)) :=
  ⟨by decide, by decide, c3_to_signed_twos_complement.1 8 0xFF (by decide) (by decide)⟩

/-- C10: for every 8-byte frame and `start_bit + bit_len ≤ 64`, big-endian
extraction never takes the out-of-range index branch — it returns `.ok` —
and its result lies in `[0, 2 ^ bit_len)`. -/
theorem c10_big_endian_safe (data8 : List Nat) (start_bit bit_len : Nat)
    (h8 : data8.length = 8) (hle : start_bit + bit_len ≤ 64) :
    ∃ r, get_big_endian data8 start_bit bit_len = Except.ok r ∧ r < 2 ^ bit_len := by
  obtain ⟨r, hr, hlt⟩ := get_big_endian_go_ok data8 h8 bit_len start_bit 0 hle
  exact ⟨r, hr, by simpa using hlt⟩

/-- C10 witness: the frame `01 02 03 04 05 06 07 08` at `start_bit = 56`,
`bit_len = 8` (the last byte). -/
theorem c10_big_endian_safe_witness :
    ([1, 2, 3, 4, 5, 6, 7, 8] : List Nat).length = 8 ∧ 56 + 8 ≤ 64 ∧
    ∃ r, get_big_endian [1, 2, 3, 4, 5, 6, 7, 8] 56 8 = Except.ok r ∧ r < 2 ^ 8 :=
  ⟨by decide, by decide,
    c10_big_endian_safe [1, 2, 3, 4, 5, 6, 7, 8] 56 8 (by decide) (by decide)⟩

/-- C6: the log decoder's signal loading classifies the trimmed
case-insensitive token `"0"` as big-endian, while the DBC serializer's
classifier sends `"0"` (like every token outside its vocabulary) to
little-endian; each site is exactly membership in its own vocabulary, and a
token outside both vocabularies is little-endian at both sites. -/
theorem c6_endian_vocabulary_mismatch :
    load_signals_big_endian "0".toList = true ∧
    is_big_endian "0".toList = false ∧
    (∀ s : List Char,
      load_signals_big_endian s = true ↔ pyToLower (pyStrip s) ∈ logBigEndianVocab) ∧
    (∀ s : List Char,
      is_big_endian s = true ↔ pyToLower (pyStrip s) ∈ dbcBigEndianVocab) ∧
    (∀ s : List Char, pyToLower (pyStrip s) ∉ logBigEndianVocab →
      pyToLower (pyStrip s) ∉ dbcBigEndianVocab →
      load_signals_big_endian s = false ∧ is_big_endian s = false) := by
  have hlog : ∀ s : List Char,
      load_signals_big_endian s = true ↔ pyToLower (pyStrip s) ∈ logBigEndianVocab := by
    intro s
    simp [load_signals_big_endian, logBigEndianVocab]
    tauto
  have hdbc : ∀ s : List Char,
      is_big_endian s = true ↔ pyToLower (pyStrip s) ∈ dbcBigEndianVocab := by
    intro s
    simp [is_big_endian, dbcBigEndianVocab]
    tauto
  refine ⟨by decide, by decide, hlog, hdbc, ?_⟩
  intro s h1 h2
  constructor
  · cases h : load_signals_big_endian s
    · rfl
    · exact absurd ((hlog s).mp h) h1
  · cases h : is_big_endian s
    · rfl
    · exact absurd ((hdbc s).mp h) h2

/-- C6 witness: the token `"Intel"` lies outside both vocabularies and both
sites classify it little-endian. -/
theorem c6_endian_vocabulary_mismatch_witness :
    (pyToLower (pyStrip "Intel".toList) ∉ logBigEndianVocab ∧
      pyToLower (pyStrip "Intel".toList) ∉ dbcBigEndianVocab) ∧
    load_signals_big_endian "Intel".toList = false ∧ is_big_endian "Intel".toList = false :=
  ⟨⟨by decide, by decide⟩,
    c6_endian_vocabulary_mismatch.2.2.2.2 "Intel".toList (by decide) (by decide)⟩

theorem getLast?_cons_getD {α : Type} (v d : α) (L : List α) :
    ((v :: L).getLast?).getD d = (L.getLast?).getD v := by
  induction L generalizing v d with
  | nil => rfl
  | cons x xs ih =>
    rw [List.getLast?_cons_cons]
    rw [ih x d, ih x v]

/-- The DLC fold keeps the last explicitly-provided value, starting from any
running default. -/
theorem dbcDlcGo_last_explicit (sigs : List Row)
    (h : ∀ r ∈ sigs, pyStrip r.dlc = [] ∨ parsesAsPyNumber (pyStrip r.dlc) = true) :
    ∀ d : Int, dbcDlcGo sigs d = Except.ok (((sigs.filterMap explicitDlc).getLast?).getD d) := by
  induction sigs with
  | nil => intro d; rfl
  | cons r rs ih =>
    intro d
    have hr := h r (List.mem_cons_self r rs)
    have hrs : ∀ x ∈ rs, pyStrip x.dlc = [] ∨ parsesAsPyNumber (pyStrip x.dlc) = true :=
      fun x hx => h x (List.mem_cons_of_mem r hx)
    rcases hr with hb | hp
    · have hstep : parse_int r.dlc d = Except.ok d := by
        simp [parse_int, hb]
      have hnone : explicitDlc r = none := by simp [explicitDlc, hb]
      simp only [dbcDlcGo, hstep, List.filterMap_cons, hnone]
      exact ih hrs d
    · obtain ⟨v, hv⟩ : ∃ v, pyIntOfFloat (pyStrip r.dlc) = Except.ok v := by
        unfold parsesAsPyNumber at hp
        cases hE : pyIntOfFloat (pyStrip r.dlc) with
        | error e => rw [hE] at hp; simp [Except.toOption] at hp
        | ok v => exact ⟨v, rfl⟩
      have hnb : ¬(pyStrip r.dlc = []) := by
        intro hc
        rw [hc] at hv
        have hnil : pyIntOfFloat ([] : List Char) =
            Except.error "ValueError: could not convert string to float" := rfl
        rw [hnil] at hv
        exact Except.noConfusion hv
      have hstep : parse_int r.dlc d = Except.ok v := by
        simp [parse_int, hnb]
        exact hv
      have hsome : explicitDlc r = some v := by
        simp [explicitDlc, hnb, hv, Except.toOption]
      simp only [dbcDlcGo, hstep, List.filterMap_cons, hsome]
      show dbcDlcGo rs v = Except.ok ((v :: List.filterMap explicitDlc rs).getLast?.getD d)
      rw [ih hrs v, getLast?_cons_getD]

/-- C7: for every CAN id's signal group whose `dlc` columns all parse, the
DLC emitted on that id's `BO_` line is the last explicitly-provided
(non-default) dlc value in input row order, and the default 8 when every
row leaves the column blank. -/
theorem c7_dlc_last_explicit (sigs : List Row)
    (h : ∀ r ∈ sigs, pyStrip r.dlc = [] ∨ parsesAsPyNumber (pyStrip r.dlc) = true) :
    dbcMessageDlc sigs = Except.ok (((sigs.filterMap explicitDlc).getLast?).getD 8) :=
  dbcDlcGo_last_explicit sigs h 8

/-- C7 witness: rows with dlc columns `"4"`, `""`: the emitted DLC is the
last explicit value 4, not the default 8. -/
theorem c7_dlc_last_explicit_witness :
    (∀ r ∈ [sampleRow "a".toList "1".toList "4".toList,
            sampleRow "b".toList "1".toList "".toList],
      pyStrip r.dlc = [] ∨ parsesAsPyNumber (pyStrip r.dlc) = true) ∧
    dbcMessageDlc [sampleRow "a".toList "1".toList "4".toList,
        sampleRow "b".toList "1".toList "".toList] =
      Except.ok ((([sampleRow "a".toList "1".toList "4".toList,
        sampleRow "b".toList "1".toList "".toList].filterMap explicitDlc).getLast?).getD 8) :=
  ⟨by decide, c7_dlc_last_explicit _ (by decide)⟩

/-- C8 counterexample: csv_to_dbc's consumer does not silently skip a row
that has a `name` but a missing `can_id` — its grouping loop aborts with a
ValueError — and decode_frame_from_csv's consumer keeps (rather than skips)
a row missing `name`. -/
theorem c8_counterexample :
    isError (dbcSigsFor [sampleRow "x".toList "".toList "".toList] 0) = true ∧
    decode_frame_matching_rows [sampleRow "".toList "5".toList "".toList] 5 =
      Except.ok [sampleRow "".toList "5".toList "".toList] := by
  exact ⟨rfl, by with_unfolding_all rfl⟩

/-- C8 (amended): decode_log's `load_signals` silently skips a row missing
`name` or missing `can_id`; csv_to_dbc silently skips a row missing `name`
but aborts with a parse error on a row that has a name and a missing
`can_id`; decode_frame_from_csv silently skips a row missing `can_id` but
keeps rows missing `name`. -/
theorem c8_row_skipping (r : Row) (rs : List Row) (c : Int) :
    (r.name = [] ∨ r.can_id = [] → load_signals (r :: rs) = load_signals rs) ∧
    (r.name = [] → dbcSigsFor (r :: rs) c = dbcSigsFor rs c) ∧
    (r.name ≠ [] → r.can_id = [] → isError (dbcSigsFor (r :: rs) c) = true) ∧
    (r.can_id = [] → decode_frame_matching_rows (r :: rs) c =
      decode_frame_matching_rows rs c) := by
  refine ⟨?_, ?_, ?_, ?_⟩
  · intro h
    simp [load_signals, h]
  · intro h
    simp [dbcSigsFor, h]
  · intro hn hc
    have hval : dbcSigsFor (r :: rs) c =
        Except.error "ValueError: could not convert string to float" := by
      simp only [dbcSigsFor, if_neg hn, hc]
      rfl
    rw [hval]
    rfl
  · intro h
    simp [decode_frame_matching_rows, h]

/-- C8 witness: the amended behavior instantiated on concrete rows — a row
missing `name` is dropped by `load_signals`, and a named row with a missing
`can_id` aborts csv_to_dbc's grouping. -/
theorem c8_row_skipping_witness :
    ((sampleRow "".toList "7".toList "".toList).name = [] ∨
      (sampleRow "".toList "7".toList "".toList).can_id = []) ∧
    load_signals [sampleRow "".toList "7".toList "".toList] = load_signals [] ∧
    isError (dbcSigsFor [sampleRow "y".toList "".toList "".toList] 3) = true :=
  ⟨Or.inl rfl,
    (c8_row_skipping (sampleRow "".toList "7".toList "".toList) [] 3).1 (Or.inl rfl),
    (c8_row_skipping (sampleRow "y".toList "".toList "".toList) [] 3).2.2.1
      (by decide) rfl⟩

/-- The big-endian loop stays at 0 when all visited bytes (indices ≥ 2 here)
are zero. -/
theorem get_big_endian_go_zero (data8 : List Nat) (h8 : data8.length = 8)
    (hz : ∀ i, 2 ≤ i → i < 8 → data8.getD i 0 = 0) :
    ∀ n bi, 16 ≤ bi → bi + n ≤ 64 →
    get_big_endian_go data8 n bi 0 = Except.ok 0 := by
  intro n
  induction n with
  | zero => intro bi _ _; rfl
  | succ n ih =>
    intro bi h16 h64
    have hlt : bi / 8 < data8.length := by rw [h8]; omega
    have hb : data8[bi / 8]? = some (data8.getD (bi / 8) 0) := by
      rw [List.getElem?_eq_getElem hlt, List.getD_eq_getElem data8 0 hlt]
    have hz2 : data8.getD (bi / 8) 0 = 0 := hz (bi / 8) (by omega) (by omega)
    simp only [get_big_endian_go, hb, hz2]
    have hacc : (((0 : Nat) <<< 1) ||| (((0 : Nat) >>> (7 - bi % 8)) &&& 1)) = 0 := by
      simp
    rw [hacc]
    exact ih (bi + 1) (by omega) (by omega)

/-- C4 counterexample: with the claim's single signal definition, the comma
line `"1233,01,02,03,04,05,06,07,08"` does not decode at all — `CSV_RE`
reads `ts="1233"`, `id="01"`, leaving only seven byte tokens, so
`parse_bytes_from_csv_parts` raises and the run aborts instead of producing
a row. -/
theorem c4_counterexample :
    isError (decodeLineRows [c4sig] "1233,01,02,03,04,05,06,07,08".toList) = true := by
  with_unfolding_all rfl

/-- C4 (amended): with the timestamp field the CSV form requires, the comma
line `"1.000000,1233,01,02,03,04,05,06,07,08"` (decimal id 1233 = 0x4D1) is
the format-agnostic equivalent of the candump line
`"(1.000000) can0 4D1#0102030405060708"`: both produce the identical decoded
row, with raw = 0x0201 = 513 and value 513/10 (scale arithmetic is modelled
in exact rationals); the claim's original comma line, which lacks the
timestamp field, instead raises. -/
theorem c4_format_equivalence :
    decodeLineRows [c4sig] "(1.000000) can0 4D1#0102030405060708".toList =
      decodeLineRows [c4sig] "1.000000,1233,01,02,03,04,05,06,07,08".toList ∧
    decodeLineRows [c4sig] "(1.000000) can0 4D1#0102030405060708".toList =
      Except.ok [⟨"1.000000".toList, 0x4D1, "SIG".toList, mkRat 513 10, "u".toList, 513⟩] := by
  constructor
  · with_unfolding_all rfl
  · with_unfolding_all rfl

/-- C5 counterexample: the comma line `"1,2,3"` (matching the CSV pattern
with fewer than 8 byte tokens) is not discarded: it raises, aborting the
loop before the valid candump line after it is ever read. -/
theorem c5_counterexample :
    isError (processLines [] initState
      ["1,2,3".toList, "4D1#0102030405060708".toList]) = true := by
  with_unfolding_all rfl

/-- C5 (amended): a line on which `parse_frame_line` returns `None` — in
particular any non-blank non-comment line matching neither regex — is
silently discarded (no counter records it) and iteration continues on the
remaining lines with unchanged state; but a comma-delimited line that does
match the CSV pattern with fewer than 8 valid byte tokens (such as
`"1,2,3"`) raises an uncaught error that aborts the run. -/
theorem c5_unmatched_lines_skipped :
    (∀ line : List Char, pyStrip line ≠ [] → (pyStrip line).headD ' ' ≠ '#' →
      csvMatch (pyStrip line) = none → canDumpMatch (pyStrip line) = none →
      parse_frame_line line = Except.ok none) ∧
    (∀ (sigs : List SignalDef) (st : LoopState) (line : List Char)
      (rest : List (List Char)), parse_frame_line line = Except.ok none →
      processLines sigs st (line :: rest) = processLines sigs st rest) ∧
    isError (parse_frame_line "1,2,3".toList) = true := by
  refine ⟨?_, ?_, by with_unfolding_all rfl⟩
  · intro line h1 h2 h3 h4
    unfold parse_frame_line
    rw [if_neg h1, if_neg h2, h3, h4]
  · intro sigs st line rest h
    have hpl : processLine sigs st line = Except.ok st := by
      unfold processLine
      rw [h]
      rfl
    show (do
      let st2 ← processLine sigs st line
      processLines sigs st2 rest) = processLines sigs st rest
    rw [hpl]
    rfl

/-- C5 witness: the line `"hello world"` matches neither pattern, parses to
`None`, and dropping it leaves the loop state untouched. -/
theorem c5_unmatched_lines_skipped_witness :
    parse_frame_line "hello world".toList = Except.ok none ∧
    processLines [] initState ["hello world".toList] = processLines [] initState [] :=
  ⟨by decide, c5_unmatched_lines_skipped.2.1 [] initState "hello world".toList [] (by decide)⟩

/-- C9: every parsed frame is normalized to exactly 8 bytes before decoding —
shorter byte sequences are zero-padded on the right, longer ones truncated to
the first 8 — odd-length hex data is right-padded with one `'0'` nibble
before byte-pairing, and for the 2-data-byte line `"4D1#0102"` (which parses
to bytes `[1, 2]`, padded to `[1, 2, 0, 0, 0, 0, 0, 0]`) every field lying
entirely beyond byte 2 (`start_bit ≥ 16`) decodes raw = 0 in either byte
order. -/
theorem c9_eight_byte_normalization (data : List Nat) (hexdata : List Char) (s l : Nat) :
    (normalize8 data).length = 8 ∧
    (data.length ≤ 8 → normalize8 data = data ++ List.replicate (8 - data.length) 0) ∧
    (8 ≤ data.length → normalize8 data = data.take 8) ∧
    (pyStrip hexdata = hexdata → hexdata ≠ [] → hexdata.length % 2 = 1 →
      parse_bytes_from_hex_data hexdata = fromHexPairs (hexdata ++ ['0'])) ∧
    parse_frame_line "4D1#0102".toList = Except.ok (some ⟨none, 0x4D1, [1, 2]⟩) ∧
    normalize8 [1, 2] = [1, 2, 0, 0, 0, 0, 0, 0] ∧
    (16 ≤ s → s + l ≤ 64 →
      get_little_endian [1, 2, 0, 0, 0, 0, 0, 0] s l = 0 ∧
      get_big_endian [1, 2, 0, 0, 0, 0, 0, 0] s l = Except.ok 0) := by
  refine ⟨?_, ?_, ?_, ?_, by decide, by decide, ?_⟩
  · by_cases hlt : data.length < 8
    · simp only [normalize8, if_pos hlt, List.length_append, List.length_replicate]
      omega
    · simp only [normalize8, if_neg hlt, List.length_take]
      omega
  · intro hle
    by_cases hlt : data.length < 8
    · simp [normalize8, hlt]
    · have h8 : data.length = 8 := by omega
      rw [normalize8, if_neg hlt,
        show (8 : Nat) - data.length = 0 from by omega, List.replicate_zero,
        List.append_nil, show (8 : Nat) = data.length from h8.symm, List.take_length]
  · intro hge
    have hlt : ¬(data.length < 8) := by omega
    simp [normalize8, hlt]
  · intro hstrip hne hodd
    simp [parse_bytes_from_hex_data, hstrip, hne, hodd]
  · intro hs hsl
    constructor
    · show (int_from_bytes_le [1, 2, 0, 0, 0, 0, 0, 0] >>> s) &&& ((1 <<< l) - 1) = 0
      have hval : int_from_bytes_le [1, 2, 0, 0, 0, 0, 0, 0] = 513 := rfl
      rw [hval, Nat.shiftRight_eq_div_pow]
      have h513 : (513 : Nat) < 2 ^ s :=
        lt_of_lt_of_le (by norm_num) (Nat.pow_le_pow_right (by norm_num) hs)
      rw [Nat.div_eq_of_lt h513, Nat.zero_and]
    · show get_big_endian_go [1, 2, 0, 0, 0, 0, 0, 0] l s 0 = Except.ok 0
      exact get_big_endian_go_zero [1, 2, 0, 0, 0, 0, 0, 0] rfl
        (by intro i hi2 hi8; interval_cases i <;> rfl) l s hs hsl

/-- C9 witness: the padded `"4D1#0102"` frame with a field at
`start_bit = 16`, `bit_length = 16` decodes raw 0 both ways. -/
theorem c9_eight_byte_normalization_witness :
    ([1, 2] : List Nat).length ≤ 8 ∧ 16 ≤ 16 ∧ 16 + 16 ≤ 64 ∧
    normalize8 [1, 2] = [1, 2] ++ List.replicate (8 - 2) 0 ∧
    get_little_endian [1, 2, 0, 0, 0, 0, 0, 0] 16 16 = 0 ∧
    get_big_endian [1, 2, 0, 0, 0, 0, 0, 0] 16 16 = Except.ok 0 :=
  ⟨by decide, by decide, by decide,
    (c9_eight_byte_normalization [1, 2] [] 16 16).2.1 (by decide),
    ((c9_eight_byte_normalization [1, 2] [] 16 16).2.2.2.2.2.2 (by decide) (by decide)).1,
    ((c9_eight_byte_normalization [1, 2] [] 16 16).2.2.2.2.2.2 (by decide) (by decide)).2⟩
